import Mathlib

/-!
# Verification of container-test-cli's expectation evaluation and test execution

Shallow embedding of the core logic of the `container-test` repository:
exit-code expectation parsing and evaluation (`internal/config/config.go`),
command assembly, expectation evaluation and single-test execution
(`internal/runner/runner.go` and the duplicated historical copies), and the
suite-runner loop (`runner.go`).

Modelling conventions:
* Go strings are Lean `String`s; Go byte positions coincide with character
  positions on the ASCII data exercised here.
* Go `map[string]string` values are embedded as the association list in the
  order the Go runtime enumerates the map (`for k, v := range m`); two lists
  that are permutations of each other denote the same map.
* The Go standard `regexp` library is an external collaborator and is kept
  abstract as a compile function `String → Option (String → Bool)`;
  `regexp.MustCompile` panics when compilation fails, which the embedding
  renders as `Except.error`.
* Subprocess execution is external; it is embedded as an oracle mapping the
  built argv and resolved timeout to an observed process outcome.
-/

namespace ContainerTest

/-- Decidable equality for `Except`, used to evaluate the embedding on
concrete inputs. -/
instance {ε α : Type} [DecidableEq ε] [DecidableEq α] : DecidableEq (Except ε α) := fun x y =>
  match x, y with
  | .error a, .error b =>
    if h : a = b then isTrue (by rw [h]) else isFalse (by intro hc; cases hc; exact h rfl)
  | .ok a, .ok b =>
    if h : a = b then isTrue (by rw [h]) else isFalse (by intro hc; cases hc; exact h rfl)
  | .error _, .ok _ => isFalse (by intro hc; cases hc)
  | .ok _, .error _ => isFalse (by intro hc; cases hc)

/-! ## Go standard-library fragments used by the code under verification -/

/-- Go `unicode.IsSpace` restricted to the ASCII whitespace characters that
`strings.TrimSpace` can remove from the tokens handled here. -/
def goIsSpace (c : Char) : Bool :=
  c = ' ' || c = '\t' || c = '\n' || c = '\r' || c = '\x0b' || c = '\x0c'

/-- Go `strings.TrimSpace`: remove leading and trailing whitespace. -/
def goTrimSpace (s : String) : String :=
  String.mk (((s.toList.dropWhile goIsSpace).reverse.dropWhile goIsSpace).reverse)

/-- Go `strings.HasPrefix s pre`. -/
def goHasPrefixB (s pre : String) : Bool :=
  pre.toList.isPrefixOf s.toList

/-- Go `strings.Contains s substr`. -/
def goStringsContains (s substr : String) : Bool :=
  decide (substr.toList <:+: s.toList)

/-- Go `s[n:]` for ASCII strings: drop the first `n` characters. -/
def goDrop (s : String) (n : Nat) : String :=
  String.mk (s.toList.drop n)

/-- Go `strconv.Atoi`: optional sign followed by at least one digit, nothing
else.  The Go original is bounded to 64 bits; the values appearing in this
code base are tiny, so the model is unbounded. -/
def goAtoi (s : String) : Option Int :=
  let digitsVal (ds : List Char) : Int :=
    ds.foldl (fun acc d => acc * 10 + (Int.ofNat (d.toNat - '0'.toNat))) 0
  match s.toList with
  | [] => none
  | c :: rest =>
    if c = '-' then
      if rest ≠ [] ∧ rest.all Char.isDigit then some (-(digitsVal rest)) else none
    else if c = '+' then
      if rest ≠ [] ∧ rest.all Char.isDigit then some (digitsVal rest) else none
    else
      if (c :: rest).all Char.isDigit then some (digitsVal (c :: rest)) else none

/-- One character of Go `%q` quoting (`strconv.Quote`), faithful on the
printable-ASCII data this code handles. -/
def goQuoteChar (c : Char) : String :=
  if c = '"' then "\\\""
  else if c = '\\' then "\\\\"
  else if c = '\n' then "\\n"
  else if c = '\t' then "\\t"
  else if c = '\r' then "\\r"
  else String.singleton c

/-- Go `fmt.Sprintf("%q", s)` (`strconv.Quote`) on printable-ASCII strings. -/
def goQuote (s : String) : String :=
  "\"" ++ String.join (s.toList.map goQuoteChar) ++ "\""

/-! ## ExitCodeExpect (`internal/config/config.go`) -/

/-- `config.ExitCodeExpect`: a parsed exit-code expression like `==0`, `>=1`. -/
structure ExitCodeExpect where
  op : String
  value : Int
  rawInt : Option Int := none
deriving Repr, DecidableEq

/-- `ExitCodeExpect.String()`: render back to display form `<op><value>`. -/
def ExitCodeExpect.render (e : ExitCodeExpect) : String :=
  e.op ++ toString e.value

/-- `ExitCodeExpect.SatisfiedBy`: whether the actual exit code matches. -/
def ExitCodeExpect.satisfiedBy (e : ExitCodeExpect) (actual : Int) : Bool :=
  match e.op with
  | "==" => actual == e.value
  | "!=" => actual != e.value
  | ">=" => decide (actual ≥ e.value)
  | "<=" => decide (actual ≤ e.value)
  | ">" => decide (actual > e.value)
  | "<" => decide (actual < e.value)
  | _ => false

/-- The operator candidate list scanned by `parseOperator`
(`unnamed/part_000`) and by the inlined loop in
`internal/config.ExitCodeExpect.UnmarshalYAML`. -/
def operatorList : List String := ["==", "!=", ">=", "<=", ">", "<"]

/-- The scan loop shared by both parser copies: first candidate operator that
is a prefix of the expression. -/
def findOperator : List String → String → Option String
  | [], _ => none
  | op :: rest, expr => if goHasPrefixB expr op then some op else findOperator rest expr

/-- `parseOperator` (`unnamed/part_000` lines 152-161): extract the comparison
operator and the whitespace-trimmed remainder; default to `==` with the whole
expression when no operator matches. -/
def parseOperator (expr : String) : String × String :=
  match findOperator operatorList expr with
  | some op => (op, goTrimSpace (goDrop expr op.length))
  | none => ("==", expr)

/-- `ExitCodeExpect.UnmarshalYAML` on a scalar token
(`internal/config/config.go` lines 97-128; `unnamed/part_000` lines 163-189
factors the operator scan into `parseOperator`, with identical behaviour):
a bare integer means `==`; otherwise scan for an operator and parse the
trimmed remainder as an integer, failing otherwise. -/
def exitCodeExpectUnmarshalScalar (tok : String) : Except String ExitCodeExpect :=
  match goAtoi tok with
  | some v => .ok { op := "==", value := v, rawInt := some v }
  | none =>
    let expr := goTrimSpace tok
    let pr := parseOperator expr
    match goAtoi pr.2 with
    | some v => .ok { op := pr.1, value := v, rawInt := none }
    | none => .error "exit_code expression must end with an integer"

/-! ## Data model (`internal/config/config.go`) -/

/-- `config.ExpectBlock`: assertions for a test's stdout/stderr/exit code.
`stdoutContains`, `stdoutNot` and `stderrContains` are the load-time
normalised `StringOrSlice` values. -/
structure ExpectBlock where
  exitCode : Option ExitCodeExpect := none
  stdoutContains : List String := []
  stdoutNot : List String := []
  stderrContains : List String := []
  stdoutRegex : String := ""
  stderrRegex : String := ""
  timeoutSeconds : Option Int := none
deriving Repr, DecidableEq

/-- `config.TestCase`: a single test definition.  `env` is the Go
`map[string]string` in the order the runtime enumerates it; `exec` and
`command` are the load-time normalised `CommandValue` argv lists. -/
structure TestCase where
  name : String := ""
  exec : List String := []
  command : List String := []
  skip : Bool := false
  workdir : String := ""
  env : List (String × String) := []
  expect : ExpectBlock := {}
  runArgs : List String := []
  entrypoint : Option String := none
  timeout : Option Int := none
deriving Repr, DecidableEq

/-- `runner.Result`: the outcome of running a single test.  `exitCode = none`
embeds the JSON `exit_code: null` of a nil `*int`. -/
structure Result where
  status : String
  name : String
  stdout : String := ""
  stderr : String := ""
  exitCode : Option Int := none
  failures : List String := []
deriving Repr, DecidableEq

/-- The Go `regexp` library, kept abstract: `compile pat` is
`regexp.Compile`, `none` meaning compilation fails (so `regexp.MustCompile`
panics) and `some m` meaning the compiled pattern matches `s` anywhere iff
`m s = true` (`MatchString` searches, it does not anchor). -/
def RegexEngine : Type := String → Option (String → Bool)

/-- The Go regexp metacharacters.  Used by the concrete model engine below. -/
def goRegexMeta : List Char :=
  ['\\', '^', '$', '.', '|', '?', '*', '+', '(', ')', '[', ']', '{', '}']

/-- Concrete `RegexEngine` instance used to evaluate the embedding at
concrete inputs.  It is faithful to Go's `regexp` on the fragment exercised
here: a pattern containing no metacharacter is valid and matches a string
iff it occurs in it as a substring, and the pattern `"("` (an unclosed
group) is rejected by `regexp.Compile`. -/
def litEngine : RegexEngine := fun pat =>
  if pat.toList.all (fun c => !goRegexMeta.contains c) then
    some (fun s => goStringsContains s pat)
  else
    none

/-- The message of the panic raised by `regexp.MustCompile` on an invalid
pattern. -/
def mustCompilePanicMsg (pat : String) : String :=
  "regexp: Compile(" ++ goQuote pat ++ "): error parsing regexp"

/-- The failure message for a violated exit-code expectation. -/
def exitCodeFailMsg (exitCode : Int) (expected : ExitCodeExpect) : String :=
  "exit code " ++ toString exitCode ++ " != expected " ++ expected.render

/-! ## Command assembly (`internal/runner/runner.go` lines 26-41) -/

/-- `runner.BuildRunCommand` (identical in `runner.go` line 14 and
`unnamed/part_002` line 37): assemble the engine `run` argv.  The `env`
parameter is the map-enumeration order chosen by the Go runtime for this
call's `for k, v := range env` loop. -/
def buildRunCommand (engine image : String) (cmd : List String) (workdir : String)
    (env : List (String × String)) (runArgs : List String)
    (entrypoint : Option String) : List String :=
  let args := [engine, "run", "--rm"]
  let args := args ++ runArgs
  let args := match entrypoint with
    | some e => args ++ ["--entrypoint", e]
    | none => args
  let args := env.foldl (fun a kv => a ++ ["-e", kv.1 ++ "=" ++ kv.2]) args
  let args := if workdir ≠ "" then args ++ ["-w", workdir] else args
  let args := args ++ [image]
  args ++ cmd

/-- `firstNonEmpty` (`internal/runner/runner.go` lines 44-51). -/
def firstNonEmpty : List String → String
  | [] => ""
  | v :: rest => if v ≠ "" then v else firstNonEmpty rest

/-! ## Expectation evaluation, internal copy
(`internal/runner/runner.go` lines 54-92) -/

/-- One `if expect.XRegex != "" { re := regexp.MustCompile(...); if
!re.MatchString(target) { append } }` block of the internal
`evalExpectations` (`internal/runner/runner.go` lines 79-90): the failure
strings the block appends, or the `MustCompile` panic. -/
def regexStep (eng : RegexEngine) (pattern target outputName : String) :
    Except String (List String) :=
  if pattern ≠ "" then
    match eng pattern with
    | none => .error (mustCompilePanicMsg pattern)
    | some re =>
      .ok (if !re target then [outputName ++ " does not match regex " ++ goQuote pattern] else [])
  else .ok []

/-- `evalExpectations` (`internal/runner/runner.go` lines 54-92): apply the
expect-block rules to collected outputs, accumulating failure strings in
emission order.  `regexp.MustCompile` on a non-empty invalid pattern panics,
embedded as `Except.error`. -/
def evalExpectationsInternal (eng : RegexEngine) (expect : ExpectBlock)
    (stdout stderr : String) (exitCode : Int) : Except String (List String) := do
  let expectedExit := expect.exitCode.getD { op := "==", value := 0 }
  let failures : List String :=
    if !expectedExit.satisfiedBy exitCode then [exitCodeFailMsg exitCode expectedExit] else []
  let failures := failures ++ expect.stdoutContains.filterMap (fun needle =>
    if !goStringsContains stdout needle then some ("stdout missing: " ++ goQuote needle) else none)
  let failures := failures ++ expect.stdoutNot.filterMap (fun needle =>
    if goStringsContains stdout needle then some ("stdout must not contain: " ++ goQuote needle) else none)
  let failures := failures ++ expect.stderrContains.filterMap (fun needle =>
    if !goStringsContains stderr needle then some ("stderr missing: " ++ goQuote needle) else none)
  let soFails ← regexStep eng expect.stdoutRegex stdout "stdout"
  let seFails ← regexStep eng expect.stderrRegex stderr "stderr"
  return failures ++ soFails ++ seFails

/-! ## Expectation evaluation, historical copy (`unnamed/part_002`) -/

/-- `checkContains` (`unnamed/part_002` lines 55-63). -/
def checkContains (output : String) (expectedStrings : List String)
    (outputName : String) : List String :=
  expectedStrings.filterMap (fun needle =>
    if !goStringsContains output needle then
      some (outputName ++ " missing: " ++ goQuote needle)
    else none)

/-- `checkNotContains` (`unnamed/part_002` lines 66-74). -/
def checkNotContains (output : String) (forbiddenStrings : List String)
    (outputName : String) : List String :=
  forbiddenStrings.filterMap (fun needle =>
    if goStringsContains output needle then
      some (outputName ++ " must not contain: " ++ goQuote needle)
    else none)

/-- `checkRegex` (`unnamed/part_002` lines 77-86): empty pattern means no
check; `regexp.MustCompile` panics on an invalid pattern. -/
def checkRegex (eng : RegexEngine) (output pattern outputName : String) :
    Except String (List String) :=
  if pattern = "" then .ok []
  else
    match eng pattern with
    | none => .error (mustCompilePanicMsg pattern)
    | some re =>
      if !re output then .ok [outputName ++ " does not match regex " ++ goQuote pattern]
      else .ok []

/-- `evalExpectations` (`unnamed/part_002` lines 89-111): same rules as the
internal copy, but the stdout checks (including the stdout regex) all run
before the stderr checks. -/
def evalExpectationsPart002 (eng : RegexEngine) (expect : ExpectBlock)
    (stdout stderr : String) (exitCode : Int) : Except String (List String) :=
  let expectedExit := expect.exitCode.getD { op := "==", value := 0 }
  let failures : List String :=
    if !expectedExit.satisfiedBy exitCode then [exitCodeFailMsg exitCode expectedExit] else []
  let failures := failures ++ checkContains stdout expect.stdoutContains "stdout"
  let failures := failures ++ checkNotContains stdout expect.stdoutNot "stdout"
  match checkRegex eng stdout expect.stdoutRegex "stdout" with
  | .error e => .error e
  | .ok soFails =>
    let failures := failures ++ soFails
    let failures := failures ++ checkContains stderr expect.stderrContains "stderr"
    match checkRegex eng stderr expect.stderrRegex "stderr" with
    | .error e => .error e
    | .ok seFails => .ok (failures ++ seFails)

/-! ## Single-test execution (`internal/runner/runner.go` lines 95-178) -/

/-- Observable outcome of the spawned engine subprocess, as classified by
`RunSingleTest` from `cmd.Run()`'s error and the context state: the deadline
elapsed, the process could not start or died abnormally (`err` is not an
`*exec.ExitError`), or the process exited with a code.  Each case carries
the stdout/stderr text captured up to that point. -/
inductive ProcOutcome where
  | timedOut (stdout stderr : String)
  | launchFailed (errText : String) (stdout stderr : String)
  | exited (exitCode : Int) (stdout stderr : String)
deriving Repr, DecidableEq

/-- The subprocess layer as an oracle: what the external engine does when
spawned with the given argv under the given timeout (seconds). -/
def ExecOracle : Type := List String → Int → ProcOutcome

/-- Command resolution in `RunSingleTest` (`internal/runner/runner.go` lines
100-103): `Exec` if non-empty, else `Command`. -/
def commandOf (t : TestCase) : List String :=
  if t.exec.length = 0 then t.command else t.exec

/-- Timeout resolution in `RunSingleTest` (`internal/runner/runner.go` lines
115-121): start from the default, overwrite with the expect-block value when
present, then overwrite with the per-test value when present. -/
def resolveTimeout (t : TestCase) (defaultTimeout : Int) : Int :=
  let timeout := defaultTimeout
  let timeout := match t.expect.timeoutSeconds with
    | some v => v
    | none => timeout
  match t.timeout with
  | some v => v
  | none => timeout

/-- `runner.RunSingleTest` (`internal/runner/runner.go` lines 95-178):
skip short-circuit, command resolution, timeout resolution, command
assembly, subprocess execution via the oracle, outcome classification, and
expectation evaluation.  A `MustCompile` panic inside `evalExpectations`
propagates as `Except.error`. -/
def runSingleTest (eng : RegexEngine) (engine image : String) (t : TestCase)
    (defaultTimeout : Int) (exec : ExecOracle) : Except String Result :=
  if t.skip then
    .ok { status := "SKIPPED", name := firstNonEmpty [t.name, "unnamed"] }
  else
    let command := commandOf t
    if command.length = 0 then
      .ok { status := "FAILED", name := firstNonEmpty [t.name, "unnamed"],
            failures := ["missing 'exec' or 'command'"] }
    else
      let timeout := resolveTimeout t defaultTimeout
      let runCmd := buildRunCommand engine image command t.workdir t.env t.runArgs t.entrypoint
      match exec runCmd timeout with
      | .timedOut stdout stderr =>
        .ok { status := "FAILED", name := firstNonEmpty [t.name, "unnamed"],
              stdout := stdout, stderr := stderr, exitCode := none,
              failures := ["timed out after " ++ toString timeout ++ "s"] }
      | .launchFailed errText stdout stderr =>
        .ok { status := "FAILED", name := firstNonEmpty [t.name, "unnamed"],
              stdout := stdout, stderr := stderr, exitCode := none,
              failures := ["exception: " ++ errText] }
      | .exited exitCode stdout stderr => do
        let failures ← evalExpectationsInternal eng t.expect stdout stderr exitCode
        let status := if failures.length > 0 then "FAILED" else "PASSED"
        return { status := status, name := firstNonEmpty [t.name, "unnamed"],
                 stdout := stdout, stderr := stderr, exitCode := some exitCode,
                 failures := failures }

/-! ## Suite runner (`runner.go`, the `cliConfig` layer, lines 182-290) -/

/-- `cliConfig` (`runner.go` lines 183-193). -/
structure CliConfig where
  configPath : String := ""
  image : String := ""
  engine : String := ""
  defaultTimeout : Int := 0
  jsonReport : String := ""
  failFast : Bool := false
  debug : Bool := false
  dryRun : Bool := false
deriving Repr, DecidableEq

/-- `testName` (`runner.go` lines 226-231): declared name, or
`test-<1-based-index>` when blank (`index` is 0-based). -/
def testName (t : TestCase) (index : Nat) : String :=
  if t.name ≠ "" then t.name else "test-" ++ toString (index + 1)

/-- `command` (`runner.go` lines 234-239). -/
def commandRunnerGo (t : TestCase) : List String :=
  if t.exec.length > 0 then t.exec else t.command

/-- `handleDryRun` (`runner.go` lines 242-250): build and display the
command, return a `DRY-RUN` result carrying the display name. -/
def handleDryRun (engine image : String) (t : TestCase) (name : String) : Result :=
  let command := commandRunnerGo t
  let _runCmd := buildRunCommand engine image command t.workdir t.env t.runArgs t.entrypoint
  { status := "DRY-RUN", name := name }

/-- Output of one `runTests` call.  Besides the Go return values (`results`,
`failures`), the embedding records the trace of `==> name` header lines the
loop prints and the 0-based indices of the iterations that invoked
`RunSingleTest`, so that display names and "which tests executed" are
observable. -/
structure RunTestsOut where
  results : List Result
  failures : Nat
  headers : List String
  executed : List Nat
deriving Repr, DecidableEq

/-- The `for idx, testCase := range tests` loop of `runTests` (`runner.go`
lines 267-287), with `idx` and the running failure counter made explicit.
The oracle is indexed by the iteration because the external engine may
behave differently per spawned process. -/
def runTestsLoop (eng : RegexEngine) (cfg : CliConfig) (exec : Nat → ExecOracle) :
    Nat → Nat → List TestCase → Except String RunTestsOut
  | _, failures, [] => .ok { results := [], failures := failures, headers := [], executed := [] }
  | idx, failures, t :: rest => do
    let name := testName t idx
    if cfg.dryRun then
      let res := handleDryRun cfg.engine cfg.image t name
      if cfg.failFast ∧ failures > 0 then
        return { results := [res], failures := failures, headers := [name], executed := [] }
      else
        let out ← runTestsLoop eng cfg exec (idx + 1) failures rest
        return { results := res :: out.results, failures := out.failures,
                 headers := name :: out.headers, executed := out.executed }
    else
      let res ← runSingleTest eng cfg.engine cfg.image t cfg.defaultTimeout (exec idx)
      let failures := if res.failures.length > 0 then failures + 1 else failures
      if cfg.failFast ∧ failures > 0 then
        return { results := [res], failures := failures, headers := [name], executed := [idx] }
      else
        let out ← runTestsLoop eng cfg exec (idx + 1) failures rest
        return { results := res :: out.results, failures := out.failures,
                 headers := name :: out.headers, executed := idx :: out.executed }

/-- `runTests` (`runner.go` lines 262-290): run every test in order,
accumulate results and the failure counter, and stop early when fail-fast
is enabled and a failure has occurred. -/
def runTests (eng : RegexEngine) (cfg : CliConfig) (tests : List TestCase)
    (exec : Nat → ExecOracle) : Except String RunTestsOut :=
  runTestsLoop eng cfg exec 0 0 tests

/-! ## Theorems -/

/-- The `["-e", "<key>=<value>"]` segment produced by the env loop of
`BuildRunCommand`, in enumeration order. -/
def envFlags (env : List (String × String)) : List String :=
  env.flatMap (fun kv => ["-e", kv.1 ++ "=" ++ kv.2])

theorem envFoldl_eq_append_envFlags (env : List (String × String)) (init : List String) :
    env.foldl (fun a kv => a ++ ["-e", kv.1 ++ "=" ++ kv.2]) init = init ++ envFlags env := by
  induction env generalizing init with
  | nil => simp [envFlags]
  | cons kv rest ih =>
    simp only [List.foldl_cons, envFlags, List.flatMap_cons, ih, List.append_assoc]

/-- C4: `BuildRunCommand` returns argv in exactly the order
`[engine, "run", "--rm"]`, the extra run arguments verbatim, the two tokens
`"--entrypoint"` and the override value iff an override is set (the empty
override still yields the two tokens, the second empty), one
`["-e", "<key>=<value>"]` pair per environment entry in enumeration order,
`["-w", workdir]` iff the workdir is non-empty, the image, and the command
tokens. -/
theorem buildRunCommand_structure (engine image : String) (cmd : List String)
    (workdir : String) (env : List (String × String)) (runArgs : List String)
    (entrypoint : Option String) :
    buildRunCommand engine image cmd workdir env runArgs entrypoint =
      [engine, "run", "--rm"] ++ runArgs
        ++ (match entrypoint with
            | some e => ["--entrypoint", e]
            | none => [])
        ++ envFlags env
        ++ (if workdir ≠ "" then ["-w", workdir] else [])
        ++ [image] ++ cmd := by
  simp only [buildRunCommand, envFoldl_eq_append_envFlags]
  cases entrypoint <;> by_cases h : workdir = "" <;> simp [h, List.append_assoc]

/-- C1 (counterexample): the claim that two calls of `BuildRunCommand` with
identical inputs return byte-identical argv is false, because the Go runtime
may enumerate the `env` map in different orders on different calls: the two
enumeration orders below denote the same two-entry map, yet the built argv
lists differ. -/
theorem buildRunCommand_env_order_counterexample :
    ([("A", "1"), ("B", "2")] : List (String × String)).Perm [("B", "2"), ("A", "1")]
    ∧ buildRunCommand "docker" "img" ["true"] "" [("A", "1"), ("B", "2")] [] none
        ≠ buildRunCommand "docker" "img" ["true"] "" [("B", "2"), ("A", "1")] [] none := by
  constructor
  · decide
  · decide

/-- C1 (amended): `BuildRunCommand` is deterministic only relative to the
runtime's enumeration order of the environment map: the `-e` pairs appear in
exactly the enumeration order handed to the call, so two calls agree
whenever their enumeration orders agree, and in particular whenever the map
has at most one entry (where every enumeration order is the same). -/
theorem buildRunCommand_deterministic_given_enumeration (engine image : String)
    (cmd : List String) (workdir : String) (runArgs : List String)
    (entrypoint : Option String) (env₁ env₂ : List (String × String)) :
    (env₁.Perm env₂ → env₁.length ≤ 1 →
      buildRunCommand engine image cmd workdir env₁ runArgs entrypoint =
        buildRunCommand engine image cmd workdir env₂ runArgs entrypoint)
    ∧ (env₁ = env₂ →
      buildRunCommand engine image cmd workdir env₁ runArgs entrypoint =
        buildRunCommand engine image cmd workdir env₂ runArgs entrypoint) := by
  constructor
  · intro hperm hlen
    have : env₁ = env₂ := by
      cases env₁ with
      | nil => exact (List.Perm.eq_nil hperm.symm).symm
      | cons kv rest =>
        cases rest with
        | nil => exact (List.perm_singleton.mp hperm.symm).symm
        | cons kv2 rest2 => simp at hlen
    rw [this]
  · intro h
    rw [h]

/-- C1 (witness for the amended theorem): a concrete one-entry environment,
where the amended determinism guarantee applies. -/
theorem buildRunCommand_deterministic_given_enumeration_witness :
    ([("A", "1")] : List (String × String)).Perm [("A", "1")]
    ∧ ([("A", "1")] : List (String × String)).length ≤ 1
    ∧ buildRunCommand "docker" "img" ["true"] "" [("A", "1")] [] none =
        buildRunCommand "docker" "img" ["true"] "" [("A", "1")] [] none :=
  ⟨by decide, by decide,
    (buildRunCommand_deterministic_given_enumeration "docker" "img" ["true"] "" [] none
      [("A", "1")] [("A", "1")]).1 (by decide) (by decide)⟩

theorem findOperator_none_all_fail :
    ∀ (ops : List String) (expr : String), findOperator ops expr = none →
      ∀ op ∈ ops, goHasPrefixB expr op = false := by
  intro ops
  induction ops with
  | nil => simp
  | cons o rest ih =>
    intro expr h op hmem
    by_cases ho : goHasPrefixB expr o
    · simp [findOperator, ho] at h
    · simp only [findOperator, ho, if_false, Bool.false_eq_true, ite_false] at h
      rcases List.mem_cons.mp hmem with rfl | hmem2
      · simpa using ho
      · exact ih expr h op hmem2

/-- The operator selected by the scan loop is a longest-matching prefix:
every candidate operator that is a prefix of the expression is no longer
than the selected one (the two-character operators are checked first, so
`>=` is never read as `>`). -/
theorem findOperator_longest (expr op : String)
    (h : findOperator operatorList expr = some op) :
    op ∈ operatorList ∧ goHasPrefixB expr op = true
      ∧ ∀ op2 ∈ operatorList, goHasPrefixB expr op2 = true → op2.length ≤ op.length := by
  simp only [operatorList] at h ⊢
  by_cases h1 : goHasPrefixB expr "=="
  · simp only [findOperator, h1, if_true] at h
    injection h with h
    subst h
    refine ⟨by simp, h1, ?_⟩
    intro op2 hmem _
    rcases List.mem_cons.mp hmem with rfl | hmem <;>
      simp_all [List.mem_cons] <;> rcases hmem with rfl | rfl | rfl | rfl | rfl <;> decide
  · simp only [findOperator, h1, if_false, Bool.false_eq_true, ite_false] at h
    by_cases h2 : goHasPrefixB expr "!="
    · simp only [findOperator, h2, if_true] at h
      injection h with h
      subst h
      refine ⟨by simp, h2, ?_⟩
      intro op2 hmem _
      rcases List.mem_cons.mp hmem with rfl | hmem <;>
        simp_all [List.mem_cons] <;> rcases hmem with rfl | rfl | rfl | rfl | rfl <;> decide
    · simp only [findOperator, h2, if_false, Bool.false_eq_true, ite_false] at h
      by_cases h3 : goHasPrefixB expr ">="
      · simp only [findOperator, h3, if_true] at h
        injection h with h
        subst h
        refine ⟨by simp, h3, ?_⟩
        intro op2 hmem _
        rcases List.mem_cons.mp hmem with rfl | hmem <;>
          simp_all [List.mem_cons] <;> rcases hmem with rfl | rfl | rfl | rfl | rfl <;> decide
      · simp only [findOperator, h3, if_false, Bool.false_eq_true, ite_false] at h
        by_cases h4 : goHasPrefixB expr "<="
        · simp only [findOperator, h4, if_true] at h
          injection h with h
          subst h
          refine ⟨by simp, h4, ?_⟩
          intro op2 hmem _
          rcases List.mem_cons.mp hmem with rfl | hmem <;>
            simp_all [List.mem_cons] <;> rcases hmem with rfl | rfl | rfl | rfl | rfl <;> decide
        · simp only [findOperator, h4, if_false, Bool.false_eq_true, ite_false] at h
          by_cases h5 : goHasPrefixB expr ">"
          · simp only [findOperator, h5, if_true] at h
            injection h with h
            subst h
            refine ⟨by simp, h5, ?_⟩
            intro op2 hmem hpre
            rcases List.mem_cons.mp hmem with rfl | hmem
            · exact absurd hpre (by simpa using h1)
            · rcases List.mem_cons.mp hmem with rfl | hmem
              · exact absurd hpre (by simpa using h2)
              · rcases List.mem_cons.mp hmem with rfl | hmem
                · exact absurd hpre (by simpa using h3)
                · rcases List.mem_cons.mp hmem with rfl | hmem
                  · exact absurd hpre (by simpa using h4)
                  · rcases List.mem_cons.mp hmem with rfl | hmem
                    · decide
                    · rcases List.mem_cons.mp hmem with rfl | hmem
                      · decide
                      · simp at hmem
          · simp only [findOperator, h5, if_false, Bool.false_eq_true, ite_false] at h
            by_cases h6 : goHasPrefixB expr "<"
            · simp only [findOperator, h6, if_true] at h
              injection h with h
              subst h
              refine ⟨by simp, h6, ?_⟩
              intro op2 hmem hpre
              rcases List.mem_cons.mp hmem with rfl | hmem
              · exact absurd hpre (by simpa using h1)
              · rcases List.mem_cons.mp hmem with rfl | hmem
                · exact absurd hpre (by simpa using h2)
                · rcases List.mem_cons.mp hmem with rfl | hmem
                  · exact absurd hpre (by simpa using h3)
                  · rcases List.mem_cons.mp hmem with rfl | hmem
                    · exact absurd hpre (by simpa using h4)
                    · rcases List.mem_cons.mp hmem with rfl | hmem
                      · decide
                      · rcases List.mem_cons.mp hmem with rfl | hmem
                        · decide
                        · simp at hmem
            · simp [findOperator, h6] at h

/-- C5: parsing an exit-code expectation from a scalar token.  A bare
integer `n` yields `==n`; otherwise the scan takes the longest-matching
operator among the six candidates (never reading `>=` as `>`), and the
whitespace-trimmed remainder must parse as an integer or the parse fails;
`"5"` yields `==5`, `">=3"` yields `>=3`, `"== 2"` is accepted, and
`"abc"` and `">=x"` are load errors. -/
theorem exitCodeExpect_parse_spec :
    (∀ tok n, goAtoi tok = some n →
        exitCodeExpectUnmarshalScalar tok = .ok { op := "==", value := n, rawInt := some n })
    ∧ (∀ tok op, goAtoi tok = none →
        findOperator operatorList (goTrimSpace tok) = some op →
          (op ∈ operatorList ∧ goHasPrefixB (goTrimSpace tok) op = true
            ∧ ∀ op2 ∈ operatorList, goHasPrefixB (goTrimSpace tok) op2 = true →
                op2.length ≤ op.length)
          ∧ (∀ v, goAtoi (goTrimSpace (goDrop (goTrimSpace tok) op.length)) = some v →
              exitCodeExpectUnmarshalScalar tok = .ok { op := op, value := v, rawInt := none })
          ∧ (goAtoi (goTrimSpace (goDrop (goTrimSpace tok) op.length)) = none →
              exitCodeExpectUnmarshalScalar tok =
                .error "exit_code expression must end with an integer"))
    ∧ exitCodeExpectUnmarshalScalar "5" = .ok { op := "==", value := 5, rawInt := some 5 }
    ∧ exitCodeExpectUnmarshalScalar ">=3" = .ok { op := ">=", value := 3, rawInt := none }
    ∧ exitCodeExpectUnmarshalScalar "== 2" = .ok { op := "==", value := 2, rawInt := none }
    ∧ exitCodeExpectUnmarshalScalar "abc" = .error "exit_code expression must end with an integer"
    ∧ exitCodeExpectUnmarshalScalar ">=x" = .error "exit_code expression must end with an integer" := by
  refine ⟨?_, ?_, by decide, by decide, by decide, by decide, by decide⟩
  · intro tok n h
    simp [exitCodeExpectUnmarshalScalar, h]
  · intro tok op hAtoi hFind
    refine ⟨findOperator_longest _ _ hFind, ?_, ?_⟩
    · intro v hv
      simp [exitCodeExpectUnmarshalScalar, hAtoi, parseOperator, hFind, hv]
    · intro hnone
      simp [exitCodeExpectUnmarshalScalar, hAtoi, parseOperator, hFind, hnone]

/-- C5 (witness): the bare-integer clause of the parse specification applied
at the concrete token `"7"`. -/
theorem exitCodeExpect_parse_spec_witness :
    goAtoi "7" = some 7
    ∧ exitCodeExpectUnmarshalScalar "7" = .ok { op := "==", value := 7, rawInt := some 7 } :=
  ⟨by decide, exitCodeExpect_parse_spec.1 "7" 7 (by decide)⟩

theorem goStringsContains_append_middle (a x b : String) :
    goStringsContains (a ++ x ++ b) x = true := by
  simp only [goStringsContains, decide_eq_true_eq]
  have h : x.data <:+: a.data ++ x.data ++ b.data := List.infix_append a.data x.data b.data
  simpa [String.toList, String.data_append] using h

/-- C7: the timeout bounding a test's subprocess is the per-test field when
present, else the expectation-block field when present, else the suite
default; when both are present the per-test value wins.  The last clause
observes, through an oracle echoing the timeout it was handed, that
`RunSingleTest` spawns the subprocess under exactly the resolved timeout. -/
theorem timeout_precedence :
    (∀ (t : TestCase) d v, t.timeout = some v → resolveTimeout t d = v)
    ∧ (∀ (t : TestCase) d w, t.timeout = none → t.expect.timeoutSeconds = some w →
        resolveTimeout t d = w)
    ∧ (∀ (t : TestCase) d, t.timeout = none → t.expect.timeoutSeconds = none →
        resolveTimeout t d = d)
    ∧ (∀ (t : TestCase) d v w, t.timeout = some v → t.expect.timeoutSeconds = some w →
        resolveTimeout t d = v)
    ∧ (∀ eng engine image (t : TestCase) d, t.skip = false → (commandOf t).length ≠ 0 →
        runSingleTest eng engine image t d (fun _ timeout => .launchFailed (toString timeout) "" "")
          = .ok { status := "FAILED", name := firstNonEmpty [t.name, "unnamed"],
                  stdout := "", stderr := "", exitCode := none,
                  failures := ["exception: " ++ toString (resolveTimeout t d)] }) := by
  refine ⟨?_, ?_, ?_, ?_, ?_⟩
  · intro t d v h
    simp [resolveTimeout, h]
  · intro t d w h1 h2
    simp [resolveTimeout, h1, h2]
  · intro t d h1 h2
    simp [resolveTimeout, h1, h2]
  · intro t d v w h1 _
    simp [resolveTimeout, h1]
  · intro eng engine image t d hskip hcmd
    simp [runSingleTest, hskip, hcmd]

/-- C7 (witness): a test declaring both a per-test timeout (5) and an
expectation-block timeout (9) resolves to the per-test value. -/
theorem timeout_precedence_witness :
    ({ timeout := some 5, expect := { timeoutSeconds := some 9 } } : TestCase).timeout = some 5
    ∧ resolveTimeout { timeout := some 5, expect := { timeoutSeconds := some 9 } } 30 = 5 :=
  ⟨rfl, timeout_precedence.1 { timeout := some 5, expect := { timeoutSeconds := some 9 } } 30 5 rfl⟩

/-- C8: a test whose subprocess exceeds its resolved timeout produces a
`FAILED` result with an absent exit code and exactly one failure message,
and that message contains the timeout value in seconds.  The conclusion pins
the whole result, so it holds for every regex engine and every expect block:
no expectation evaluation takes place on this path. -/
theorem timeout_result_spec :
    ∀ eng engine image (t : TestCase) d (exec : ExecOracle) so se,
      t.skip = false → (commandOf t).length ≠ 0 →
      exec (buildRunCommand engine image (commandOf t) t.workdir t.env t.runArgs t.entrypoint)
          (resolveTimeout t d) = .timedOut so se →
      runSingleTest eng engine image t d exec
        = .ok { status := "FAILED", name := firstNonEmpty [t.name, "unnamed"],
                stdout := so, stderr := se, exitCode := none,
                failures := ["timed out after " ++ toString (resolveTimeout t d) ++ "s"] }
      ∧ ["timed out after " ++ toString (resolveTimeout t d) ++ "s"].length = 1
      ∧ goStringsContains ("timed out after " ++ toString (resolveTimeout t d) ++ "s")
          (toString (resolveTimeout t d)) = true := by
  intro eng engine image t d exec so se hskip hcmd hrun
  refine ⟨?_, rfl, goStringsContains_append_middle _ _ _⟩
  simp [runSingleTest, hskip, hcmd, hrun]

/-- C8 (witness): a concrete test timing out under its resolved timeout of
2 seconds. -/
theorem timeout_result_spec_witness :
    ({ name := "slow", command := ["sleep"] } : TestCase).skip = false
    ∧ (commandOf { name := "slow", command := ["sleep"] }).length ≠ 0
    ∧ (runSingleTest litEngine "docker" "img" { name := "slow", command := ["sleep"] } 2
          (fun _ _ => .timedOut "o" "e")
        = .ok { status := "FAILED",
                name := firstNonEmpty [({ name := "slow", command := ["sleep"] } : TestCase).name, "unnamed"],
                stdout := "o", stderr := "e", exitCode := none,
                failures := ["timed out after "
                  ++ toString (resolveTimeout { name := "slow", command := ["sleep"] } 2) ++ "s"] }
      ∧ ["timed out after "
          ++ toString (resolveTimeout { name := "slow", command := ["sleep"] } 2) ++ "s"].length = 1
      ∧ goStringsContains
          ("timed out after "
            ++ toString (resolveTimeout { name := "slow", command := ["sleep"] } 2) ++ "s")
          (toString (resolveTimeout { name := "slow", command := ["sleep"] } 2)) = true) :=
  ⟨rfl, by decide,
    timeout_result_spec litEngine "docker" "img" { name := "slow", command := ["sleep"] } 2
      (fun _ _ => .timedOut "o" "e") "o" "e" rfl (by decide) rfl⟩

/-- Every result built by `RunSingleTest` for a test with a blank name
carries the name `"unnamed"` (`firstNonEmpty(t.Name, "unnamed")`), on every
execution path. -/
theorem runSingleTest_blank_name (t : TestCase) (ht : t.name = "")
    (eng : RegexEngine) (engine image : String) (d : Int) (exec : ExecOracle) (r : Result)
    (h : runSingleTest eng engine image t d exec = .ok r) : r.name = "unnamed" := by
  have hname : firstNonEmpty [t.name, "unnamed"] = "unnamed" := by
    rw [ht]
    decide
  cases hs : t.skip with
  | true =>
    simp only [runSingleTest, hs, if_true, Except.ok.injEq] at h
    subst h
    exact hname
  | false =>
    simp only [runSingleTest, hs, Bool.false_eq_true, if_false, ite_false] at h
    by_cases hc : (commandOf t).length = 0
    · simp only [hc, if_true, Except.ok.injEq] at h
      subst h
      exact hname
    · simp only [hc, if_false, ite_false] at h
      rcases hout : exec (buildRunCommand engine image (commandOf t) t.workdir t.env t.runArgs
          t.entrypoint) (resolveTimeout t d) with ⟨so, se⟩ | ⟨msg, so, se⟩ | ⟨code, so, se⟩ <;>
        rw [hout] at h
      · simp only [Except.ok.injEq] at h
        subst h
        exact hname
      · simp only [Except.ok.injEq] at h
        subst h
        exact hname
      · rcases heval : evalExpectationsInternal eng t.expect so se code with e | fs <;>
          simp only [heval, Bind.bind, Except.bind, pure, Except.pure, Except.ok.injEq] at h
        · exact absurd h (by simp)
        · subst h
          exact hname

/-- C3 (counterexample): a suite with a single blank-named test, executed
successfully: the loop header displays `test-1`, but the `Result` record
stored in the result set (the one the printer and JSON reporter consume)
carries the name `unnamed`, not `test-1`. -/
theorem result_name_counterexample :
    (runTests litEngine
        { engine := "docker", image := "img", defaultTimeout := 30 }
        [{ command := ["true"] }]
        (fun _ _ _ => .exited 0 "" "")
      = .ok { results := [{ status := "PASSED", name := "unnamed", stdout := "", stderr := "",
                            exitCode := some 0, failures := [] }],
              failures := 0, headers := ["test-1"], executed := [0] })
    ∧ ("unnamed" : String) ≠ "test-1" := by
  constructor
  · decide
  · decide

/-- C3 (amended): for a blank-named test at 0-based position `idx`, the
display name printed by the suite runner's header is `test-<idx+1>`, but
the `Result` record `RunSingleTest` produces — the one stored in the result
set and consumed by the printer and JSON reporter — carries the name
`"unnamed"` on every execution path. -/
theorem blank_name_display_vs_result (t : TestCase) (idx : Nat) (ht : t.name = "") :
    testName t idx = "test-" ++ toString (idx + 1)
    ∧ ∀ eng engine image d (exec : ExecOracle) r,
        runSingleTest eng engine image t d exec = .ok r → r.name = "unnamed" := by
  constructor
  · simp [testName, ht]
  · intro eng engine image d exec r h
    exact runSingleTest_blank_name t ht eng engine image d exec r h

/-- C3 (witness for the amended theorem): the blank-named test above at
position 0 displays as `test-1` while its stored result is named
`unnamed`. -/
theorem blank_name_display_vs_result_witness :
    ({ command := ["true"] } : TestCase).name = ""
    ∧ testName { command := ["true"] } 0 = "test-" ++ toString (0 + 1)
    ∧ ({ status := "PASSED", name := "unnamed", stdout := "", stderr := "",
          exitCode := some 0, failures := [] } : Result).name = "unnamed" :=
  ⟨rfl, (blank_name_display_vs_result { command := ["true"] } 0 rfl).1,
    (blank_name_display_vs_result { command := ["true"] } 0 rfl).2 litEngine "docker" "img" 30
      (fun _ _ => .exited 0 "" "")
      { status := "PASSED", name := "unnamed", stdout := "", stderr := "",
        exitCode := some 0, failures := [] }
      (by decide)⟩


theorem length_filterMap_if {α β : Type} (l : List α) (p : α → Bool) (g : α → β) :
    (l.filterMap fun x => if p x then some (g x) else none).length = l.countP p := by
  induction l with
  | nil => rfl
  | cons x xs ih =>
    by_cases hx : p x <;> simp [List.filterMap_cons, hx, ih, List.countP_cons]

theorem regexStep_ok_of (eng : RegexEngine) (p target nm : String) (re : String → Bool)
    (h : p = "" ∨ eng p = some re) :
    regexStep eng p target nm =
      .ok (if p ≠ "" ∧ re target = false then [nm ++ " does not match regex " ++ goQuote p]
           else []) := by
  rcases h with rfl | h
  · simp [regexStep]
  · by_cases hp : p = ""
    · simp [regexStep, hp]
    · simp only [regexStep, hp, ne_eq, not_false_iff, if_true, h, ite_not]
      by_cases hm : re target <;> simp [hm]

/-- The internal `evalExpectations` never panics when every configured
pattern compiles, and returns the concatenation of the six checks'
failure lists in emission order. -/
theorem evalExpectationsInternal_ok (eng : RegexEngine) (expect : ExpectBlock)
    (stdout stderr : String) (exitCode : Int) (reSo reSe : String → Bool)
    (hso : expect.stdoutRegex = "" ∨ eng expect.stdoutRegex = some reSo)
    (hse : expect.stderrRegex = "" ∨ eng expect.stderrRegex = some reSe) :
    evalExpectationsInternal eng expect stdout stderr exitCode = .ok (
      (if !(expect.exitCode.getD { op := "==", value := 0 }).satisfiedBy exitCode
        then [exitCodeFailMsg exitCode (expect.exitCode.getD { op := "==", value := 0 })] else [])
      ++ expect.stdoutContains.filterMap (fun needle =>
          if !goStringsContains stdout needle then some ("stdout missing: " ++ goQuote needle) else none)
      ++ expect.stdoutNot.filterMap (fun needle =>
          if goStringsContains stdout needle then some ("stdout must not contain: " ++ goQuote needle) else none)
      ++ expect.stderrContains.filterMap (fun needle =>
          if !goStringsContains stderr needle then some ("stderr missing: " ++ goQuote needle) else none)
      ++ (if expect.stdoutRegex ≠ "" ∧ reSo stdout = false
          then ["stdout does not match regex " ++ goQuote expect.stdoutRegex] else [])
      ++ (if expect.stderrRegex ≠ "" ∧ reSe stderr = false
          then ["stderr does not match regex " ++ goQuote expect.stderrRegex] else [])) := by
  simp only [evalExpectationsInternal, regexStep_ok_of eng _ _ _ _ hso,
    regexStep_ok_of eng _ _ _ _ hse, Bind.bind, Except.bind, pure, Except.pure,
    List.append_assoc]
  rfl

theorem status_of_failures (fs : List String) :
    ((if fs.length > 0 then "FAILED" else "PASSED") = "PASSED" ↔ fs = [])
    ∧ ((if fs.length > 0 then "FAILED" else "PASSED") = "FAILED" ↔ fs ≠ []) := by
  cases fs <;> simp

/-- C6: expectation evaluation runs every applicable check without
short-circuiting (exit code defaulting to `==0`, stdout contains-all,
stdout contains-none, stderr contains-all, stdout regex, stderr regex),
emitting one failure string per violated check, so simultaneous violations
all appear; the failure list is empty iff every check is satisfied, its
length is the number of violated checks, and the test's final status is
`PASSED` iff the list is empty and `FAILED` iff it is non-empty. -/
theorem expectation_checks_accumulate :
    ∀ eng (t : TestCase) (stdout stderr : String) (exitCode : Int) (reSo reSe : String → Bool)
      engine image d (exec : ExecOracle),
      t.skip = false → (commandOf t).length ≠ 0 →
      exec (buildRunCommand engine image (commandOf t) t.workdir t.env t.runArgs t.entrypoint)
          (resolveTimeout t d) = .exited exitCode stdout stderr →
      (t.expect.stdoutRegex = "" ∨ eng t.expect.stdoutRegex = some reSo) →
      (t.expect.stderrRegex = "" ∨ eng t.expect.stderrRegex = some reSe) →
      ∃ fs, evalExpectationsInternal eng t.expect stdout stderr exitCode = .ok fs
        ∧ ((t.expect.exitCode.getD { op := "==", value := 0 }).satisfiedBy exitCode = false →
            exitCodeFailMsg exitCode (t.expect.exitCode.getD { op := "==", value := 0 }) ∈ fs)
        ∧ (∀ n ∈ t.expect.stdoutContains, goStringsContains stdout n = false →
            ("stdout missing: " ++ goQuote n) ∈ fs)
        ∧ (∀ n ∈ t.expect.stdoutNot, goStringsContains stdout n = true →
            ("stdout must not contain: " ++ goQuote n) ∈ fs)
        ∧ (∀ n ∈ t.expect.stderrContains, goStringsContains stderr n = false →
            ("stderr missing: " ++ goQuote n) ∈ fs)
        ∧ (t.expect.stdoutRegex ≠ "" → reSo stdout = false →
            ("stdout does not match regex " ++ goQuote t.expect.stdoutRegex) ∈ fs)
        ∧ (t.expect.stderrRegex ≠ "" → reSe stderr = false →
            ("stderr does not match regex " ++ goQuote t.expect.stderrRegex) ∈ fs)
        ∧ (fs = [] ↔
            ((t.expect.exitCode.getD { op := "==", value := 0 }).satisfiedBy exitCode = true
              ∧ (∀ n ∈ t.expect.stdoutContains, goStringsContains stdout n = true)
              ∧ (∀ n ∈ t.expect.stdoutNot, goStringsContains stdout n = false)
              ∧ (∀ n ∈ t.expect.stderrContains, goStringsContains stderr n = true)
              ∧ (t.expect.stdoutRegex ≠ "" → reSo stdout = true)
              ∧ (t.expect.stderrRegex ≠ "" → reSe stderr = true)))
        ∧ fs.length =
            ((if (t.expect.exitCode.getD { op := "==", value := 0 }).satisfiedBy exitCode then 0 else 1)
            + t.expect.stdoutContains.countP (fun n => !goStringsContains stdout n)
            + t.expect.stdoutNot.countP (fun n => goStringsContains stdout n)
            + t.expect.stderrContains.countP (fun n => !goStringsContains stderr n)
            + (if t.expect.stdoutRegex ≠ "" ∧ reSo stdout = false then 1 else 0)
            + (if t.expect.stderrRegex ≠ "" ∧ reSe stderr = false then 1 else 0))
        ∧ runSingleTest eng engine image t d exec = .ok
            { status := if fs.length > 0 then "FAILED" else "PASSED",
              name := firstNonEmpty [t.name, "unnamed"], stdout := stdout, stderr := stderr,
              exitCode := some exitCode, failures := fs }
        ∧ ((if fs.length > 0 then "FAILED" else "PASSED") = "PASSED" ↔ fs = [])
        ∧ ((if fs.length > 0 then "FAILED" else "PASSED") = "FAILED" ↔ fs ≠ []) := by
  intro eng t stdout stderr exitCode reSo reSe engine image d exec hskip hcmd hexec hso hse
  have heval := evalExpectationsInternal_ok eng t.expect stdout stderr exitCode reSo reSe hso hse
  refine ⟨_, heval, ?_, ?_, ?_, ?_, ?_, ?_, ?_, ?_, ?_,
    (status_of_failures _).1, (status_of_failures _).2⟩
  · intro h
    simp [List.mem_append, h]
  · intro n hn h
    refine List.mem_append_left _ (List.mem_append_left _ (List.mem_append_left _
      (List.mem_append_left _ (List.mem_append_right _ ?_))))
    exact List.mem_filterMap.mpr ⟨n, hn, by simp [h]⟩
  · intro n hn h
    refine List.mem_append_left _ (List.mem_append_left _ (List.mem_append_left _
      (List.mem_append_right _ ?_)))
    exact List.mem_filterMap.mpr ⟨n, hn, by simp [h]⟩
  · intro n hn h
    refine List.mem_append_left _ (List.mem_append_left _ (List.mem_append_right _ ?_))
    exact List.mem_filterMap.mpr ⟨n, hn, by simp [h]⟩
  · intro hp h
    refine List.mem_append_left _ (List.mem_append_right _ ?_)
    simp [hp, h]
  · intro hp h
    refine List.mem_append_right _ ?_
    simp [hp, h]
  · constructor
    · intro h
      simp only [List.append_eq_nil, List.filterMap_eq_nil_iff] at h
      obtain ⟨⟨⟨⟨⟨hE, hA⟩, hB⟩, hC⟩, hR1⟩, hR2⟩ := h
      refine ⟨?_, ?_, ?_, ?_, ?_, ?_⟩
      · by_cases hsat : (t.expect.exitCode.getD { op := "==", value := 0 }).satisfiedBy exitCode
        · exact hsat
        · simp [hsat] at hE
      · intro n hn
        have := hA n hn
        by_cases hc : goStringsContains stdout n
        · exact hc
        · simp [hc] at this
      · intro n hn
        have := hB n hn
        by_cases hc : goStringsContains stdout n
        · simp [hc] at this
        · simpa using hc
      · intro n hn
        have := hC n hn
        by_cases hc : goStringsContains stderr n
        · exact hc
        · simp [hc] at this
      · intro hp
        by_cases hm : reSo stdout
        · exact hm
        · simp [hp, hm] at hR1
      · intro hp
        by_cases hm : reSe stderr
        · exact hm
        · simp [hp, hm] at hR2
    · intro ⟨hE, hA, hB, hC, hR1, hR2⟩
      simp only [List.append_eq_nil, List.filterMap_eq_nil_iff]
      refine ⟨⟨⟨⟨⟨?_, ?_⟩, ?_⟩, ?_⟩, ?_⟩, ?_⟩
      · simp [hE]
      · intro n hn
        simp [hA n hn]
      · intro n hn
        simp [hB n hn]
      · intro n hn
        simp [hC n hn]
      · by_cases hp : t.expect.stdoutRegex = ""
        · simp [hp]
        · simp [hp, hR1 hp]
      · by_cases hp : t.expect.stderrRegex = ""
        · simp [hp]
        · simp [hp, hR2 hp]
  · have lA := length_filterMap_if t.expect.stdoutContains
      (fun n => !goStringsContains stdout n) (fun n => "stdout missing: " ++ goQuote n)
    have lB := length_filterMap_if t.expect.stdoutNot
      (fun n => goStringsContains stdout n) (fun n => "stdout must not contain: " ++ goQuote n)
    have lC := length_filterMap_if t.expect.stderrContains
      (fun n => !goStringsContains stderr n) (fun n => "stderr missing: " ++ goQuote n)
    simp only [List.length_append, lA, lB, lC, apply_ite List.length, List.length_singleton,
      List.length_nil]
    by_cases hsat : (t.expect.exitCode.getD { op := "==", value := 0 }).satisfiedBy exitCode <;>
      simp [hsat] <;> omega
  · simp only [runSingleTest, hskip, Bool.false_eq_true, if_false, ite_false, hcmd, hexec,
      heval, Bind.bind, Except.bind, pure, Except.pure]

/-- C6 (witness): a test violating three checks at once (exit code, a
missing stdout substring, a forbidden stdout substring): all three failure
messages appear in the accumulated list. -/
theorem expectation_checks_accumulate_witness :
    ∃ fs, evalExpectationsInternal litEngine
        ({ command := ["x"],
           expect := { stdoutContains := ["hello"], stdoutNot := ["world"] } } : TestCase).expect
        "big world" "" 1 = .ok fs
      ∧ exitCodeFailMsg 1 { op := "==", value := 0 } ∈ fs
      ∧ ("stdout missing: " ++ goQuote "hello") ∈ fs
      ∧ ("stdout must not contain: " ++ goQuote "world") ∈ fs := by
  obtain ⟨fs, heval, hexit, hsc, hsn, _⟩ :=
    expectation_checks_accumulate litEngine
      { command := ["x"], expect := { stdoutContains := ["hello"], stdoutNot := ["world"] } }
      "big world" "" 1 (fun _ => true) (fun _ => true) "docker" "img" 30
      (fun _ _ => .exited 1 "big world" "") rfl (by decide) rfl (Or.inl rfl) (Or.inl rfl)
  exact ⟨fs, heval, hexit (by decide), hsc "hello" (by decide) (by decide),
    hsn "world" (by decide) (by decide)⟩

theorem runTestsLoop_failfast (eng : RegexEngine) (cfg : CliConfig) (exec : Nat → ExecOracle)
    (hff : cfg.failFast = true) (hdr : cfg.dryRun = false) :
    ∀ (ts1 : List TestCase) (s : Nat) (t : TestCase) (ts2 : List TestCase)
      (rs : Fin ts1.length → Result) (rT : Result),
      (∀ i : Fin ts1.length,
        runSingleTest eng cfg.engine cfg.image (ts1.get i) cfg.defaultTimeout (exec (s + i.val))
          = .ok (rs i) ∧ (rs i).failures = []) →
      runSingleTest eng cfg.engine cfg.image t cfg.defaultTimeout (exec (s + ts1.length)) = .ok rT →
      rT.failures ≠ [] →
      ∃ out, runTestsLoop eng cfg exec s 0 (ts1 ++ t :: ts2) = .ok out
        ∧ out.results = List.ofFn rs ++ [rT]
        ∧ out.failures = 1
        ∧ out.executed = List.range' s (ts1.length + 1) := by
  intro ts1
  induction ts1 with
  | nil =>
    intro s t ts2 rs rT hpass hT hTfail
    have hlen : rT.failures.length > 0 := by
      cases hfs : rT.failures with
      | nil => exact absurd hfs hTfail
      | cons a l => simp [hfs]
    simp only [List.length_nil, Nat.add_zero] at hT
    refine ⟨{ results := [rT], failures := 1, headers := [testName t s], executed := [s] },
      ?_, by simp, rfl, by simp [List.range']⟩
    simp only [List.nil_append, runTestsLoop, hdr, Bool.false_eq_true, if_false, ite_false,
      hT, Bind.bind, Except.bind, hff, pure, Except.pure]
    simp [hlen]
  | cons a ts1x ih =>
    intro s t ts2 rs rT hpass hT hTfail
    have hlt : 0 < (a :: ts1x).length := by simp
    obtain ⟨ha, hafail⟩ := hpass ⟨0, hlt⟩
    have ha2 : runSingleTest eng cfg.engine cfg.image a cfg.defaultTimeout (exec s)
        = .ok (rs ⟨0, hlt⟩) := by simpa using ha
    obtain ⟨out, hloop, hres, hfail, hexecd⟩ := ih (s + 1) t ts2 (fun i => rs i.succ) rT
      (fun i => by
        have h := hpass i.succ
        have harith : s + (i.val + 1) = s + 1 + i.val := by omega
        simpa [Fin.succ, harith] using h)
      (by
        have harith : s + (a :: ts1x).length = s + 1 + ts1x.length := by
          simp
          omega
        rw [← harith]
        exact hT)
      hTfail
    have hstep : runTestsLoop eng cfg exec s 0 ((a :: ts1x) ++ t :: ts2) =
        .ok { results := rs ⟨0, hlt⟩ :: out.results, failures := out.failures,
              headers := testName a s :: out.headers, executed := s :: out.executed } := by
      simp only [List.cons_append, runTestsLoop, hdr, Bool.false_eq_true, if_false, ite_false,
        Bind.bind, Except.bind, pure, Except.pure]
      rw [ha2]
      simp only [hafail, List.length_nil, Nat.lt_irrefl, if_false, ite_false, Nat.zero_add]
      simp [hloop]
    refine ⟨_, hstep, ?_, hfail, ?_⟩
    · simp only [hres, List.length_cons, List.ofFn_succ, List.cons_append]
      rfl
    · simp only [hexecd, List.length_cons]
      rfl

/-- C9: when fail-fast is enabled, once the failure counter becomes positive
after a test, iteration stops: for a suite consisting of passing tests, then
a failing test, then anything, the produced result set contains exactly the
passing results followed by the failing test's result, the failure counter
is 1, and the indices handed to the subprocess layer are exactly
`0 .. <failing index>` — no later test case is executed and no later result
appears. -/
theorem failfast_stops_iteration (eng : RegexEngine) (cfg : CliConfig) (exec : Nat → ExecOracle)
    (ts1 : List TestCase) (t : TestCase) (ts2 : List TestCase)
    (rs : Fin ts1.length → Result) (rT : Result)
    (hff : cfg.failFast = true) (hdr : cfg.dryRun = false)
    (hpass : ∀ i : Fin ts1.length,
      runSingleTest eng cfg.engine cfg.image (ts1.get i) cfg.defaultTimeout (exec i.val)
        = .ok (rs i) ∧ (rs i).failures = [])
    (hT : runSingleTest eng cfg.engine cfg.image t cfg.defaultTimeout (exec ts1.length) = .ok rT)
    (hTfail : rT.failures ≠ []) :
    ∃ out, runTests eng cfg (ts1 ++ t :: ts2) exec = .ok out
      ∧ out.results = List.ofFn rs ++ [rT]
      ∧ out.failures = 1
      ∧ out.executed = List.range (ts1.length + 1)
      ∧ out.results.length = ts1.length + 1 := by
  obtain ⟨out, h1, h2, h3, h4⟩ := runTestsLoop_failfast eng cfg exec hff hdr ts1 0 t ts2 rs rT
    (by simpa using hpass) (by simpa using hT) hTfail
  exact ⟨out, h1, h2, h3, by rw [h4, List.range_eq_range'], by simp [h2]⟩

/-- C9 (witness): the suite `[A (fails), B (would pass)]` under fail-fast:
the result set contains only A's result, and only iteration 0 reached the
subprocess layer — B is never executed. -/
theorem failfast_stops_iteration_witness :
    ∃ out, runTests litEngine
        { engine := "docker", image := "img", defaultTimeout := 30, failFast := true }
        [{ name := "A", command := ["false"] }, { name := "B", command := ["true"] }]
        (fun idx => fun _ _ => if idx = 0 then .exited 1 "" "" else .exited 0 "" "")
      = .ok out
      ∧ out.results = [{ status := "FAILED", name := "A", stdout := "", stderr := "",
                         exitCode := some 1,
                         failures := ["exit code 1 != expected ==0"] }]
      ∧ out.failures = 1 ∧ out.executed = [0] := by
  obtain ⟨out, h1, h2, h3, h4, _⟩ := failfast_stops_iteration litEngine
    { engine := "docker", image := "img", defaultTimeout := 30, failFast := true }
    (fun idx => fun _ _ => if idx = 0 then .exited 1 "" "" else .exited 0 "" "")
    [] { name := "A", command := ["false"] } [{ name := "B", command := ["true"] }]
    (fun i => i.elim0)
    { status := "FAILED", name := "A", stdout := "", stderr := "", exitCode := some 1,
      failures := ["exit code 1 != expected ==0"] }
    rfl rfl (fun i => i.elim0) (by decide) (by decide)
  exact ⟨out, h1, by simpa using h2, h3, by simpa using h4⟩

/-- The regex block of the internal `evalExpectations` computes the same
function as `checkRegex` from `unnamed/part_002` (arguments in the source
order of each copy). -/
theorem regexStep_eq_checkRegex (eng : RegexEngine) (p target nm : String) :
    regexStep eng p target nm = checkRegex eng target p nm := by
  by_cases hp : p = ""
  · simp [regexStep, checkRegex, hp]
  · simp only [regexStep, checkRegex, hp, if_false, ite_false, ne_eq, not_false_iff, if_true]
    cases eng p with
    | none => rfl
    | some re => by_cases hm : re target <;> simp [hm]

/-- C10 (counterexample): the two `evalExpectations` copies do not return
the same failure list on every input: when both a stderr contains-check and
the stdout regex check fail, the internal copy lists the stderr failure
first while the `unnamed/part_002` copy lists the regex failure first. -/
theorem evalExpectations_copies_counterexample :
    evalExpectationsInternal litEngine { stderrContains := ["x"], stdoutRegex := "zzz" } "a" "a" 0
      = .ok ["stderr missing: \"x\"", "stdout does not match regex \"zzz\""]
    ∧ evalExpectationsPart002 litEngine { stderrContains := ["x"], stdoutRegex := "zzz" } "a" "a" 0
      = .ok ["stdout does not match regex \"zzz\"", "stderr missing: \"x\""]
    ∧ evalExpectationsInternal litEngine { stderrContains := ["x"], stdoutRegex := "zzz" } "a" "a" 0
      ≠ evalExpectationsPart002 litEngine { stderrContains := ["x"], stdoutRegex := "zzz" } "a" "a" 0 :=
  ⟨by decide, by decide, by decide⟩

theorem stdoutMissing_filterMap_eq (stdout : String) (l : List String) :
    (l.filterMap fun needle =>
      if !goStringsContains stdout needle then some ("stdout missing: " ++ goQuote needle)
      else none)
    = checkContains stdout l "stdout" := rfl

theorem stdoutForbidden_filterMap_eq (stdout : String) (l : List String) :
    (l.filterMap fun needle =>
      if goStringsContains stdout needle then some ("stdout must not contain: " ++ goQuote needle)
      else none)
    = checkNotContains stdout l "stdout" := rfl

theorem stderrMissing_filterMap_eq (stderr : String) (l : List String) :
    (l.filterMap fun needle =>
      if !goStringsContains stderr needle then some ("stderr missing: " ++ goQuote needle)
      else none)
    = checkContains stderr l "stderr" := rfl

/-- C10 (amended): the two `evalExpectations` copies agree up to the order
of the failure strings: on every input they either panic with the same
message, or return failure lists that are permutations of each other (the
internal copy emits stderr contains-failures before the stdout regex
failure, the historical copy the other way around; all other blocks agree
in order). -/
theorem evalExpectations_copies_agree (eng : RegexEngine) (expect : ExpectBlock)
    (stdout stderr : String) (exitCode : Int) :
    (∃ e, evalExpectationsInternal eng expect stdout stderr exitCode = .error e
        ∧ evalExpectationsPart002 eng expect stdout stderr exitCode = .error e)
    ∨ (∃ l₁ l₂, evalExpectationsInternal eng expect stdout stderr exitCode = .ok l₁
        ∧ evalExpectationsPart002 eng expect stdout stderr exitCode = .ok l₂
        ∧ l₁.Perm l₂) := by
  rcases hso : checkRegex eng stdout expect.stdoutRegex "stdout" with e1 | soF
  · left
    refine ⟨e1, ?_, ?_⟩
    · simp only [evalExpectationsInternal, regexStep_eq_checkRegex, hso,
        Bind.bind, Except.bind]
    · simp only [evalExpectationsPart002, hso]
  · rcases hse : checkRegex eng stderr expect.stderrRegex "stderr" with e2 | seF
    · left
      refine ⟨e2, ?_, ?_⟩
      · simp only [evalExpectationsInternal, regexStep_eq_checkRegex, hso, hse,
          Bind.bind, Except.bind]
      · simp only [evalExpectationsPart002, hso, hse]
    · right
      simp only [evalExpectationsInternal, evalExpectationsPart002, regexStep_eq_checkRegex,
        hso, hse, Bind.bind, Except.bind, pure, Except.pure]
      refine ⟨_, _, rfl, rfl, ?_⟩
      simp only [stdoutMissing_filterMap_eq, stdoutForbidden_filterMap_eq,
        stderrMissing_filterMap_eq, List.append_assoc]
      refine List.Perm.append_left _ ?_
      refine List.Perm.append_left _ ?_
      refine List.Perm.append_left _ ?_
      rw [← List.append_assoc, ← List.append_assoc]
      exact List.Perm.append_right seF List.perm_append_comm

/-- C2 (counterexample): an invalid regex pattern is not surfaced before
execution: a suite whose first test passes and whose second test carries the
invalid pattern `"("` runs the first test and then aborts mid-run with the
`regexp.MustCompile` panic raised inside that test's expectation
evaluation — per-test expectation evaluation is invoked with the invalid
pattern. -/
theorem invalid_regex_counterexample :
    evalExpectationsInternal litEngine { stdoutRegex := "(" } "" "" 0
      = .error (mustCompilePanicMsg "(")
    ∧ runTests litEngine { engine := "docker", image := "img", defaultTimeout := 30 }
        [{ name := "ok", command := ["true"] },
         { name := "bad", command := ["true"], expect := { stdoutRegex := "(" } }]
        (fun _ => fun _ _ => .exited 0 "" "")
      = .error (mustCompilePanicMsg "(") :=
  ⟨by decide, by decide⟩

/-- C2 (amended): the loader performs no regex validation; a syntactically
invalid pattern surfaces only when the test carrying it is evaluated:
`regexp.MustCompile` inside `evalExpectations` panics (aborting the whole
run at that test), and the invalid pattern is never recorded as a failure
entry in any per-test `Result` — whenever evaluation returns a failure
list, every configured pattern compiled. -/
theorem invalid_regex_panics (eng : RegexEngine) (expect : ExpectBlock) (stdout stderr : String)
    (exitCode : Int) :
    (expect.stdoutRegex ≠ "" → eng expect.stdoutRegex = none →
      evalExpectationsInternal eng expect stdout stderr exitCode
        = .error (mustCompilePanicMsg expect.stdoutRegex))
    ∧ ((expect.stdoutRegex = "" ∨ (∃ re, eng expect.stdoutRegex = some re)) →
        expect.stderrRegex ≠ "" → eng expect.stderrRegex = none →
        evalExpectationsInternal eng expect stdout stderr exitCode
          = .error (mustCompilePanicMsg expect.stderrRegex))
    ∧ (∀ fs, evalExpectationsInternal eng expect stdout stderr exitCode = .ok fs →
        (expect.stdoutRegex ≠ "" → (eng expect.stdoutRegex).isSome)
        ∧ (expect.stderrRegex ≠ "" → (eng expect.stderrRegex).isSome)) := by
  refine ⟨?_, ?_, ?_⟩
  · intro hp hnone
    simp [evalExpectationsInternal, regexStep, hp, hnone, Bind.bind, Except.bind]
  · intro hcomp hp2 hnone2
    rcases hcomp with hempty | ⟨re, hre⟩
    · simp [evalExpectationsInternal, regexStep, hempty, hp2, hnone2, Bind.bind, Except.bind]
    · by_cases hp1 : expect.stdoutRegex = "" <;>
        simp [evalExpectationsInternal, regexStep, hp1, hre, hp2, hnone2, Bind.bind, Except.bind]
  · intro fs h
    constructor
    · intro hp
      cases hcso : eng expect.stdoutRegex with
      | none =>
        simp [evalExpectationsInternal, regexStep, hp, hcso, Bind.bind, Except.bind] at h
      | some re => simp
    · intro hp2
      cases hcse : eng expect.stderrRegex with
      | none =>
        rcases hrs : regexStep eng expect.stdoutRegex stdout "stdout" with e | l
        · simp only [evalExpectationsInternal, Bind.bind, Except.bind] at h
          rw [hrs] at h
          simp at h
        · simp only [evalExpectationsInternal, Bind.bind, Except.bind] at h
          rw [hrs] at h
          simp [regexStep, hp2, hcse] at h
      | some re => simp

/-- C2 (witness for the amended theorem): the invalid pattern `"("` makes
expectation evaluation panic rather than produce a failure list. -/
theorem invalid_regex_panics_witness :
    (({ stdoutRegex := "(" } : ExpectBlock).stdoutRegex ≠ "")
    ∧ litEngine ({ stdoutRegex := "(" } : ExpectBlock).stdoutRegex = none
    ∧ evalExpectationsInternal litEngine { stdoutRegex := "(" } "" "" 0
        = .error (mustCompilePanicMsg ({ stdoutRegex := "(" } : ExpectBlock).stdoutRegex) :=
  ⟨by decide, rfl,
    (invalid_regex_panics litEngine { stdoutRegex := "(" } "" "" 0).1 (by decide) rfl⟩

end ContainerTest
